import Mathlib

/-!
Shallow embedding of the go-lwApi repository (LiquidWeb API Go client) and of
its older lwInternalApi variant, with theorems checking the natural-language
specification against the code.

The embedding models:
  * decoded JSON values (`Json`) as Go's `encoding/json` produces them when
    unmarshalling into `interface\x7b\x7d`;
  * Go's `json.Marshal` on such values (`Json.marshal`);
  * a viper configuration (`ViperConfig`) with viper's zero-value defaults
    (`GetString` of a missing key is `""`, `GetBool` is `false`,
    `GetInt` is `0`);
  * the client construction `New` / `santizeConfig` of `apiClient.go`;
  * the response-processing halves of `Call` in both package variants,
    including the Go runtime panics caused by unchecked type assertions
    (`.panic` results);
  * `CallRaw` and `CallInto` of `apiClient.go`, with the HTTP transport
    round-trip passed in explicitly as a `TransportOutcome`.
-/

namespace LwApi

/-- A decoded JSON value, exactly the shapes Go's `json.Unmarshal` can store in
an `interface\x7b\x7d`: null, booleans, numbers, strings, arrays and objects.
Objects are association lists; Go maps are unordered, and `json.Marshal`
renders map keys in sorted order, so an object modelling a Go map is listed in
that render order. -/
inductive Json where
  | null : Json
  | bool (b : Bool) : Json
  | num (n : Int) : Json
  | str (s : String) : Json
  | arr (elems : List Json) : Json
  | obj (fields : List (String × Json)) : Json

/-- Escape one character the way `json.Marshal` renders it inside a string
literal (restricted to the characters our development uses: quote and
backslash get escaped, everything else passes through). -/
def escapeChar (c : Char) : String :=
  if c = '"' then "\\\""
  else if c = '\\' then "\\\\"
  else String.singleton c

/-- Render a JSON string literal with surrounding quotes. -/
def quoteStr (s : String) : String :=
  "\"" ++ String.join (s.data.map escapeChar) ++ "\""

mutual

/-- Go's `json.Marshal` on a decoded value. -/
def Json.marshal : Json → String
  | .null => "null"
  | .bool true => "true"
  | .bool false => "false"
  | .num n => toString n
  | .str s => quoteStr s
  | .arr xs => "[" ++ marshalElems xs ++ "]"
  | .obj kvs => "\x7b" ++ marshalFields kvs ++ "\x7d"

/-- Comma-separated rendering of array elements. -/
def marshalElems : List Json → String
  | [] => ""
  | [x] => Json.marshal x
  | x :: y :: xs => Json.marshal x ++ "," ++ marshalElems (y :: xs)

/-- Comma-separated rendering of object fields. -/
def marshalFields : List (String × Json) → String
  | [] => ""
  | [(k, v)] => quoteStr k ++ ":" ++ Json.marshal v
  | (k, v) :: kv :: kvs =>
      quoteStr k ++ ":" ++ Json.marshal v ++ "," ++ marshalFields (kv :: kvs)

end

/-- Go map indexing `m[k]` on a decoded JSON object: `some v` when the key is
present, `none` when absent (in Go the two-result form reports `ok = false`,
and the one-result form yields the zero value `nil`). -/
def jsonLookup (kvs : List (String × Json)) (k : String) : Option Json :=
  match kvs with
  | [] => none
  | (k0, v) :: rest => if k0 = k then some v else jsonLookup rest k

/-- The safe view of Go's type assertion `v.(string)`: `some s` when the
interface holds a string, `none` otherwise (including the nil interface a
missing map key or JSON null produces). The unchecked one-result assertion
panics exactly when this is `none`. -/
def Json.asString : Json → Option String
  | .str s => some s
  | _ => none

/-- A viper configuration as the client reads it: each key either set or
absent, plus the name of the config file viper reports via
`ConfigFileUsed()`. -/
structure ViperConfig where
  username : Option String
  password : Option String
  url : Option String
  timeout : Option Int
  secure : Option Bool
  configFileUsed : String
deriving DecidableEq, Repr

/-- viper's `GetString`: the zero value `""` when the key is absent. -/
def getString (o : Option String) : String := o.getD ""

/-- viper's `GetInt`: the zero value `0` when the key is absent. -/
def getInt (o : Option Int) : Int := o.getD 0

/-- viper's `GetBool`: the zero value `false` when the key is absent. -/
def getBool (o : Option Bool) : Bool := o.getD false

/-- The `LWAPIError` struct of `apiClient.go`, with its three JSON-tagged
string fields. -/
structure LWAPIError where
  ErrorMsg : String
  ErrorClass : String
  ErrorFullMsg : String
deriving DecidableEq, Repr

/-- `LWAPIError.Error`: `fmt.Sprintf("%v: %v", e.ErrorClass, e.ErrorFullMsg)`. -/
def LWAPIError.Error (e : LWAPIError) : String :=
  e.ErrorClass ++ ": " ++ e.ErrorFullMsg

/-- `LWAPIError.HadError`: `e.ErrorClass != ""`. -/
def LWAPIError.HadError (e : LWAPIError) : Bool :=
  e.ErrorClass != ""

/-- The `LWAPIRes` interface: a result type that can report its own error
state. -/
class LWAPIRes (α : Type) where
  ErrorOf : α → String
  HadErrorOf : α → Bool

instance lwapiErrorRes : LWAPIRes LWAPIError where
  ErrorOf := LWAPIError.Error
  HadErrorOf := LWAPIError.HadError

/-- The `Client` built by `New` in `apiClient.go`: the validated config, the
HTTP client timeout in seconds, and whether the transport was replaced by one
with `InsecureSkipVerify: true` (when `false`, the default transport is kept
and server certificates are verified). -/
structure Client where
  config : ViperConfig
  timeoutSeconds : Int
  insecureSkipVerify : Bool
deriving DecidableEq, Repr

/-- `santizeConfig` of `apiClient.go`: returns the first config error, or
`none` when username, password and url are all non-empty. -/
def santizeConfig (config : ViperConfig) : Option String :=
  if getString config.username = "" then
    some ("lwApi.username is missing from config file: [" ++ config.configFileUsed ++ "]")
  else if getString config.password = "" then
    some ("lwApi.password is missing from config file: [" ++ config.configFileUsed ++ "]")
  else if getString config.url = "" then
    some ("lwApi.url is missing from config file: [" ++ config.configFileUsed ++ "]")
  else
    none

/-- `New` of `apiClient.go`: validate the config, default the timeout to 20
when `GetInt` yields 0, and install an `InsecureSkipVerify` transport exactly
when `GetBool("lwApi.secure") != true`. -/
def New (config : ViperConfig) : Except String Client :=
  match santizeConfig config with
  | some err => .error err
  | none =>
    let timeout0 := getInt config.timeout
    let timeout := if timeout0 = 0 then 20 else timeout0
    let skipVerify := if getBool config.secure = true then false else true
    .ok { config := config, timeoutSeconds := timeout, insecureSkipVerify := skipVerify }

/-- The outcome of handing a 200 response body to `json.Unmarshal` with an
`interface\x7b\x7d` target: either the decode fails (the bytes are not valid
JSON) or it yields a decoded value. -/
inductive Body where
  | invalidJson : Body
  | jsonVal (v : Json) : Body

/-- Everything a `Call` in either package variant can produce after the
transport round-trip. `panic` marks a Go runtime panic from an unchecked type
assertion; `lwError` is the plain `fmt.Errorf` error of the lwInternalApi
variant, carrying the decoded map it prints. -/
inductive CallResult where
  | success (v : Json) : CallResult
  | decodeError (msg : String) : CallResult
  | apiError (e : LWAPIError) : CallResult
  | lwError (decoded : Json) : CallResult
  | panic : CallResult
  | encodeError : CallResult
  | transportError : CallResult
  | httpStatusError (status : Nat) (url : String) : CallResult
  | readError : CallResult

/-- The response-processing half of `Call` in `apiClient.go` (lines 120-141),
applied to the result of `json.Unmarshal` on the 200 body. A decode failure is
returned as the error; a non-object top level hits the checked cast and
returns `errors.New(...)`; a present `error_class` is cast with the unchecked
`.(string)` (panicking when it is not a string), and when non-empty the
`full_message` and `error` entries are cast the same unchecked way to build
the returned `LWAPIError`. -/
def callDecode (body : Body) : CallResult :=
  match body with
  | .invalidJson => .decodeError "invalid character"
  | .jsonVal decodedResp =>
    match decodedResp with
    | .obj mapDecodedResp =>
      match jsonLookup mapDecodedResp "error_class" with
      | some errorClass =>
        match errorClass.asString with
        | none => .panic
        | some errorClassStr =>
          if errorClassStr != "" then
            match (jsonLookup mapDecodedResp "full_message").bind Json.asString with
            | none => .panic
            | some fullMsg =>
              match (jsonLookup mapDecodedResp "error").bind Json.asString with
              | none => .panic
              | some errMsg =>
                .apiError { ErrorMsg := errMsg, ErrorClass := errorClassStr,
                            ErrorFullMsg := fullMsg }
          else
            .success decodedResp
      | none => .success decodedResp
    | _ => .decodeError "endpoint did not return the expected JSON structure"

/-- True exactly when the Go interface value (a map entry, `none` for the nil
of an absent key) holds a non-empty string: the condition the lwInternalApi
error loop tests with its `switch value.(type)` on each of `error_class` and
`error`. -/
def isNonEmptyStr (o : Option Json) : Bool :=
  match o with
  | some (.str s) => s != ""
  | _ => false

/-- The response-processing half of `Call` in the lwInternalApi variant
(src/unnamed/part_001 lines 75-95), applied to the result of `json.Unmarshal`
on the 200 body. The top-level cast `decodedResp.(map[string]interface\x7b\x7d)`
has no ok-check, so a valid non-object body panics. The error loop reports an
error when either the `error_class` or the `error` entry holds a non-empty
string; which of the two is printed depends on Go's map iteration order, so
the result carries the decoded map only. -/
def internalCallDecode (body : Body) : CallResult :=
  match body with
  | .invalidJson => .decodeError "invalid character"
  | .jsonVal decodedResp =>
    match decodedResp with
    | .obj mapDecodedResp =>
      if isNonEmptyStr (jsonLookup mapDecodedResp "error_class")
          || isNonEmptyStr (jsonLookup mapDecodedResp "error") then
        .lwError decodedResp
      else
        .success decodedResp
    | _ => .panic

/-- The HTTP POST request `CallRaw` builds: the URL
`fmt.Sprintf("%s/%s", url, method)`, the serialized params envelope as body,
and the basic-auth credentials. -/
structure HttpRequest where
  url : String
  body : String
  authUser : String
  authPass : String
deriving DecidableEq, Repr

/-- A caller-supplied params value: either one that serializes to JSON, or one
`json.Marshal` rejects (a channel, function, or cyclic value). -/
inductive GoValue where
  | json (j : Json) : GoValue
  | unserializable : GoValue

/-- What the HTTP transport does with the request: a network-level failure, or
a response with a status code and a body whose read can itself fail. -/
inductive TransportOutcome where
  | netError : TransportOutcome
  | response (status : Nat) (bodyReadable : Bool) (body : String) : TransportOutcome

/-- Request construction in `CallRaw` (lines 204-221): wrap the params in the
`\x7b"params": ...\x7d` envelope, marshal it, and build the POST request with
the config URL, the method path and basic auth. `none` when `json.Marshal`
rejects the params value. -/
def buildRequest (config : ViperConfig) (method : String) (params : GoValue) :
    Option HttpRequest :=
  match params with
  | .unserializable => none
  | .json j =>
    let encodedArgs := Json.marshal (Json.obj [("params", j)])
    some { url := getString config.url ++ "/" ++ method,
           body := encodedArgs,
           authUser := getString config.username,
           authPass := getString config.password }

/-- What `CallRaw` returns: the raw body bytes, or one of the transport-side
errors. -/
inductive RawResult where
  | ok (body : String) : RawResult
  | encodeError : RawResult
  | transportError : RawResult
  | httpStatusError (status : Nat) (url : String) : RawResult
  | readError : RawResult
deriving DecidableEq, Repr

/-- `CallRaw` of `apiClient.go` (lines 203-251): marshal the envelope, send
one POST request, fail on a network error, fail with the bad-status error
(carrying the status code and the request URL) on any non-200 status, read
the body, and return the raw bytes unparsed. The single `TransportOutcome`
argument reflects that exactly one request is issued: there is no retry. -/
def CallRaw (config : ViperConfig) (method : String) (params : GoValue)
    (outcome : TransportOutcome) : RawResult :=
  match buildRequest config method params with
  | none => .encodeError
  | some req =>
    match outcome with
    | .netError => .transportError
    | .response status bodyReadable body =>
      if status ≠ 200 then
        .httpStatusError status req.url
      else if bodyReadable then
        .ok body
      else
        .readError

/-- `Call` of `apiClient.go` (lines 114-142): delegate to `CallRaw` (returning
its failures unchanged), then unmarshal and classify the body. `unmarshal`
stands for Go's `json.Unmarshal` on the returned bytes (`none` when the bytes
are not valid JSON). -/
def Call (config : ViperConfig) (method : String) (params : GoValue)
    (outcome : TransportOutcome) (unmarshal : String → Option Json) : CallResult :=
  match CallRaw config method params outcome with
  | .ok bsRb =>
    match unmarshal bsRb with
    | none => callDecode .invalidJson
    | some v => callDecode (.jsonVal v)
  | .encodeError => .encodeError
  | .transportError => .transportError
  | .httpStatusError status url => .httpStatusError status url
  | .readError => .readError

/-- What `CallInto` returns: `ok` with the populated target on success,
`errTarget` when the populated target reports its own error state (the code
returns the target itself as the error), or a transport/decode failure. -/
inductive CallIntoResult (α : Type) where
  | ok (into : α) : CallIntoResult α
  | errTarget (into : α) : CallIntoResult α
  | decodeError : CallIntoResult α
  | encodeError : CallIntoResult α
  | transportError : CallIntoResult α
  | httpStatusError (status : Nat) (url : String) : CallIntoResult α
  | readError : CallIntoResult α

/-- `CallInto` of `apiClient.go` (lines 169-187): delegate to `CallRaw`,
unmarshal the bytes into the caller's target shape (`unmarshalInto`, `none`
on a decode failure), and if the populated target reports `HadError()`,
return the target itself as the error; otherwise return no error with the
target populated. -/
def CallInto {α : Type} [LWAPIRes α] (config : ViperConfig) (method : String)
    (params : GoValue) (outcome : TransportOutcome)
    (unmarshalInto : String → Option α) : CallIntoResult α :=
  match CallRaw config method params outcome with
  | .ok bsRb =>
    match unmarshalInto bsRb with
    | none => .decodeError
    | some into =>
      if LWAPIRes.HadErrorOf into then .errTarget into else .ok into
  | .encodeError => .encodeError
  | .transportError => .transportError
  | .httpStatusError status url => .httpStatusError status url
  | .readError => .readError

/-- Whether a `CallResult` is one of the two decode errors `Call` can return
(a `json.Unmarshal` failure or the non-object top-level error). -/
def CallResult.isDecodeError : CallResult → Bool
  | .decodeError _ => true
  | _ => false

/-- A complete configuration as the README example builds it. -/
def cfgBase : ViperConfig :=
  { username := some "user", password := some "pass",
    url := some "https://api.stormondemand.com", timeout := some 15,
    secure := some true, configFileUsed := "lwApi.toml" }

/-- The same configuration with the `lwApi.secure` key absent. -/
def cfgSecureUnset : ViperConfig := { cfgBase with secure := none }

/-- The same configuration with `lwApi.secure` explicitly `false`. -/
def cfgSecureFalse : ViperConfig := { cfgBase with secure := some false }

/-- The configuration with the username key absent. -/
def cfgNoUser : ViperConfig := { cfgBase with username := none }

/-- The configuration with an empty password value. -/
def cfgNoPass : ViperConfig := { cfgBase with password := some "" }

/-- The configuration with the url key absent. -/
def cfgNoUrl : ViperConfig := { cfgBase with url := none }

end LwApi

open LwApi

/-- C1, counterexample. The claim says that with the TLS-verify flag unset,
the client built by `New` verifies server certificates. In the code,
`config.GetBool("lwApi.secure")` yields `false` for an absent key, so the
`!= true` branch installs a transport with `InsecureSkipVerify: true`: the
constructed client does not verify certificates. -/
theorem new_with_secure_unset_skips_verification :
    (LwApi.New cfgSecureUnset).map Client.insecureSkipVerify = .ok true := rfl

/-- C1, amended. A client built by `New` has the certificate-skipping
transport installed if and only if the `lwApi.secure` flag is not explicitly
set to `true`: the flag effectively defaults to insecure, and verification is
enabled only when `secure` is explicitly `true`. -/
theorem new_skips_verification_iff_secure_not_true (cfg : ViperConfig) (c : Client)
    (h : LwApi.New cfg = .ok c) :
    c.insecureSkipVerify = true ↔ cfg.secure ≠ some true := by
  unfold LwApi.New at h
  cases hs : santizeConfig cfg with
  | some e =>
    rw [hs] at h
    exact Except.noConfusion h
  | none =>
    rw [hs] at h
    simp only [Except.ok.injEq] at h
    subst h
    cases hb : cfg.secure with
    | none => simp [getBool]
    | some b => cases b <;> simp [getBool]

/-- C1, witness: the amended theorem applied to the config that sets
`lwApi.secure = false`. -/
theorem new_skips_verification_iff_secure_not_true_witness :
    LwApi.New cfgSecureFalse =
      .ok { config := cfgSecureFalse, timeoutSeconds := 15, insecureSkipVerify := true } ∧
    ({ config := cfgSecureFalse, timeoutSeconds := 15,
       insecureSkipVerify := true : Client }.insecureSkipVerify = true ↔
      cfgSecureFalse.secure ≠ some true) :=
  ⟨rfl, new_skips_verification_iff_secure_not_true cfgSecureFalse _ rfl⟩

/-- C2: on a 200 response whose body is the object
`\x7b"error_class":"LW::Exception"\x7d` (a non-empty `error_class` with
`full_message` and `error` absent), `Call` does not return a decode error: the
unchecked type assertion `mapDecodedResp["full_message"].(string)` panics on
the nil interface. The spec requires a `DecodeError` here. -/
theorem call_panics_when_full_message_missing :
    LwApi.Call cfgBase "bleed/asset/details" (.json (.obj [("uniq_id", .str "X")]))
      (.response 200 true "\x7b\"error_class\":\"LW::Exception\"\x7d")
      (fun _ => some (.obj [("error_class", .str "LW::Exception")])) = .panic ∧
    (LwApi.Call cfgBase "bleed/asset/details" (.json (.obj [("uniq_id", .str "X")]))
      (.response 200 true "\x7b\"error_class\":\"LW::Exception\"\x7d")
      (fun _ => some (.obj [("error_class", .str "LW::Exception")]))).isDecodeError
      = false :=
  ⟨rfl, rfl⟩

/-- C3: the two `Call` implementations disagree. On any decoded 200 body that
lacks `error_class` (or has it bound to the empty string) but has a non-empty
string `error` entry, the lwApi variant returns the decoded mapping as a
success while the lwInternalApi variant returns an error carrying that
mapping. -/
theorem variants_disagree_on_error_only_body (kvs : List (String × Json)) (er : String)
    (hec : jsonLookup kvs "error_class" = none ∨
           jsonLookup kvs "error_class" = some (.str ""))
    (her : jsonLookup kvs "error" = some (.str er)) (hne : er ≠ "") :
    callDecode (.jsonVal (.obj kvs)) = .success (.obj kvs) ∧
    internalCallDecode (.jsonVal (.obj kvs)) = .lwError (.obj kvs) := by
  constructor
  · cases hec with
    | inl h => simp [callDecode, h]
    | inr h => simp [callDecode, h, Json.asString]
  · cases hec with
    | inl h => simp [internalCallDecode, h, her, isNonEmptyStr, hne]
    | inr h => simp [internalCallDecode, h, her, isNonEmptyStr, hne]

/-- C3, witness: the disagreement theorem applied to the concrete body
`\x7b"error":"bad"\x7d`. -/
theorem variants_disagree_on_error_only_body_witness :
    callDecode (.jsonVal (.obj [("error", .str "bad")])) =
      .success (.obj [("error", .str "bad")]) ∧
    internalCallDecode (.jsonVal (.obj [("error", .str "bad")])) =
      .lwError (.obj [("error", .str "bad")]) :=
  variants_disagree_on_error_only_body [("error", .str "bad")] "bad"
    (Or.inl rfl) rfl (by decide)

/-- C4, counterexample. The claim says any decoded object without a non-empty
string `error_class` is returned whole as a success. On
`\x7b"error_class":5\x7d` the code instead panics: `errorClass.(string)` is an
unchecked assertion on a non-string value. -/
theorem call_panics_on_numeric_error_class :
    callDecode (.jsonVal (.obj [("error_class", Json.num 5)])) = .panic ∧
    callDecode (.jsonVal (.obj [("error_class", Json.num 5)])) ≠
      .success (.obj [("error_class", Json.num 5)]) :=
  ⟨rfl, fun h => CallResult.noConfusion h⟩

/-- C4, amended. When the decoded object binds `error_class` to a non-empty
string and binds `full_message` and `error` to strings, `Call` returns an
`LWAPIError` populated from those three entries; when `error_class` is absent
or bound to the empty string, `Call` returns the full decoded mapping as a
success. (When `error_class` is present but non-string, or is a non-empty
string while `full_message` or `error` is absent or non-string, the code
panics instead.) -/
theorem call_error_class_classification (kvs : List (String × Json))
    (ecs em fm : String) :
    (jsonLookup kvs "error_class" = some (.str ecs) → ecs ≠ "" →
      jsonLookup kvs "full_message" = some (.str fm) →
      jsonLookup kvs "error" = some (.str em) →
      callDecode (.jsonVal (.obj kvs)) =
        .apiError { ErrorMsg := em, ErrorClass := ecs, ErrorFullMsg := fm }) ∧
    ((jsonLookup kvs "error_class" = none ∨
        jsonLookup kvs "error_class" = some (.str "")) →
      callDecode (.jsonVal (.obj kvs)) = .success (.obj kvs)) := by
  constructor
  · intro h1 h2 h3 h4
    simp [callDecode, h1, h3, h4, Json.asString, h2]
  · intro h
    cases h with
    | inl h => simp [callDecode, h]
    | inr h => simp [callDecode, h, Json.asString]

/-- C4, witness: the classification theorem applied to the spec's concrete
error body and to the plain success body `\x7b"foo":"bar"\x7d`. -/
theorem call_error_class_classification_witness :
    callDecode (.jsonVal (.obj [("error_class", .str "LW::Exception"),
        ("error", .str "bad"), ("full_message", .str "Bad thing happened")])) =
      .apiError { ErrorMsg := "bad", ErrorClass := "LW::Exception",
                  ErrorFullMsg := "Bad thing happened" } ∧
    callDecode (.jsonVal (.obj [("foo", .str "bar")])) =
      .success (.obj [("foo", .str "bar")]) :=
  ⟨(call_error_class_classification
      [("error_class", .str "LW::Exception"), ("error", .str "bad"),
       ("full_message", .str "Bad thing happened")]
      "LW::Exception" "bad" "Bad thing happened").1 rfl (by decide) rfl rfl,
   (call_error_class_classification [("foo", .str "bar")] "" "" "").2 (Or.inl rfl)⟩

/-- C5, counterexample. The claim says a 200 body that is valid JSON but not a
JSON object makes `Call` fail with a decode error in both variants. The
lwInternalApi variant instead panics on such a body (here the JSON number 5):
its cast `decodedResp.(map[string]interface\x7b\x7d)` has no ok-check. -/
theorem internal_call_panics_on_nonobject_json :
    internalCallDecode (.jsonVal (.num 5)) = .panic ∧
    (internalCallDecode (.jsonVal (.num 5))).isDecodeError = false :=
  ⟨rfl, rfl⟩

/-- C5, amended. On a body that is not valid JSON both variants return the
`json.Unmarshal` failure as a decode error; on a valid JSON body whose top
level is not an object, the lwApi variant returns its explicit decode error
while the lwInternalApi variant raises a runtime type failure. -/
theorem decode_failures_by_variant (j : Json) :
    callDecode .invalidJson = .decodeError "invalid character" ∧
    internalCallDecode .invalidJson = .decodeError "invalid character" ∧
    ((∀ kvs, j ≠ .obj kvs) →
      callDecode (.jsonVal j) =
        .decodeError "endpoint did not return the expected JSON structure" ∧
      internalCallDecode (.jsonVal j) = .panic) := by
  refine ⟨rfl, rfl, ?_⟩
  intro h
  cases j with
  | obj kvs => exact absurd rfl (h kvs)
  | null => exact ⟨rfl, rfl⟩
  | bool b => exact ⟨rfl, rfl⟩
  | num n => exact ⟨rfl, rfl⟩
  | str s => exact ⟨rfl, rfl⟩
  | arr xs => exact ⟨rfl, rfl⟩

/-- C5, witness: the amended theorem applied to the JSON number 7. -/
theorem decode_failures_by_variant_witness :
    callDecode (.jsonVal (.num 7)) =
      .decodeError "endpoint did not return the expected JSON structure" ∧
    internalCallDecode (.jsonVal (.num 7)) = .panic :=
  (decode_failures_by_variant (.num 7)).2.2 (fun _ h => Json.noConfusion h)

/-- C6: on any non-200 response `CallRaw` fails with the bad-status error
carrying that status code and the full request URL (base url, slash, method),
and `Call` returns the same failure unchanged; only one request is issued, so
nothing is retried. On a 200 response with a readable body, `CallRaw` returns
the raw body bytes unparsed, without inspecting them. -/
theorem callraw_status_handling (cfg : ViperConfig) (method : String) (j : Json)
    (status : Nat) (readable : Bool) (body : String)
    (unmarshal : String → Option Json) :
    (status ≠ 200 →
      CallRaw cfg method (.json j) (.response status readable body) =
        .httpStatusError status (getString cfg.url ++ "/" ++ method) ∧
      LwApi.Call cfg method (.json j) (.response status readable body) unmarshal =
        .httpStatusError status (getString cfg.url ++ "/" ++ method)) ∧
    CallRaw cfg method (.json j) (.response 200 true body) = .ok body := by
  constructor
  · intro hst
    constructor
    · simp [CallRaw, buildRequest, hst]
    · simp [LwApi.Call, CallRaw, buildRequest, hst]
  · simp [CallRaw, buildRequest]

/-- C6, witness: the status theorem applied to a 500 response from the mock
transport. -/
theorem callraw_status_handling_witness :
    CallRaw cfgBase "bleed/asset/details" (.json (.obj [("uniq_id", .str "X")]))
        (.response 500 true "oops") =
      .httpStatusError 500 "https://api.stormondemand.com/bleed/asset/details" ∧
    LwApi.Call cfgBase "bleed/asset/details" (.json (.obj [("uniq_id", .str "X")]))
        (.response 500 true "oops") (fun _ => none) =
      .httpStatusError 500 "https://api.stormondemand.com/bleed/asset/details" :=
  (callraw_status_handling cfgBase "bleed/asset/details"
      (.obj [("uniq_id", .str "X")]) 500 true "oops" (fun _ => none)).1
    (by decide)

/-- C7: the outgoing request body is exactly the JSON serialization of the
one-key envelope `\x7b"params": params\x7d`; on the spec's round-trip example
`params = \x7b"uniq_id":"X"\x7d` the body is the literal
`\x7b"params":\x7b"uniq_id":"X"\x7d\x7d`; and an unserializable params value
makes `CallRaw` fail with the encode error before any request is sent. -/
theorem callraw_request_body (cfg : ViperConfig) (method : String) (j : Json) :
    (buildRequest cfg method (.json j)).map HttpRequest.body =
      some (Json.marshal (.obj [("params", j)])) ∧
    (∀ outcome, CallRaw cfg method .unserializable outcome = .encodeError) ∧
    Json.marshal (.obj [("params", .obj [("uniq_id", .str "X")])]) =
      "\x7b\"params\":\x7b\"uniq_id\":\"X\"\x7d\x7d" :=
  ⟨rfl, fun _ => rfl, rfl⟩

/-- C8: `New` succeeds if and only if username, password and url are all
non-empty (a missing key reads as the empty string), and each failure is the
`ConfigError` naming the first offending field and the config file viper
reports. -/
theorem new_config_validation (cfg : ViperConfig) :
    ((∃ c, LwApi.New cfg = .ok c) ↔
      (getString cfg.username ≠ "" ∧ getString cfg.password ≠ "" ∧
        getString cfg.url ≠ "")) ∧
    (getString cfg.username = "" →
      LwApi.New cfg = .error
        ("lwApi.username is missing from config file: [" ++ cfg.configFileUsed ++ "]")) ∧
    (getString cfg.username ≠ "" → getString cfg.password = "" →
      LwApi.New cfg = .error
        ("lwApi.password is missing from config file: [" ++ cfg.configFileUsed ++ "]")) ∧
    (getString cfg.username ≠ "" → getString cfg.password ≠ "" →
        getString cfg.url = "" →
      LwApi.New cfg = .error
        ("lwApi.url is missing from config file: [" ++ cfg.configFileUsed ++ "]")) := by
  unfold LwApi.New santizeConfig
  by_cases hu : getString cfg.username = "" <;>
    by_cases hp : getString cfg.password = "" <;>
      by_cases hl : getString cfg.url = "" <;>
        simp [hu, hp, hl]

/-- C8, witness: the validation theorem applied to one config per missing
field and to the complete config. -/
theorem new_config_validation_witness :
    LwApi.New cfgNoUser =
      .error "lwApi.username is missing from config file: [lwApi.toml]" ∧
    LwApi.New cfgNoPass =
      .error "lwApi.password is missing from config file: [lwApi.toml]" ∧
    LwApi.New cfgNoUrl =
      .error "lwApi.url is missing from config file: [lwApi.toml]" ∧
    (∃ c, LwApi.New cfgBase = .ok c) :=
  ⟨(new_config_validation cfgNoUser).2.1 rfl,
   (new_config_validation cfgNoPass).2.2.1 (by decide) rfl,
   (new_config_validation cfgNoUrl).2.2.2 (by decide) (by decide) rfl,
   ((new_config_validation cfgBase).1).mpr ⟨by decide, by decide, by decide⟩⟩

/-- C9: when the transport round-trip succeeds (200, readable body) and the
body deserializes into the caller's target, `CallInto` populates the target
and returns it as the surfaced error exactly when the target reports error
state; otherwise it returns no error with the target holding the result. -/
theorem callinto_error_surfacing {α : Type} [LWAPIRes α] (cfg : ViperConfig)
    (method : String) (params : GoValue) (outcome : TransportOutcome)
    (unmarshalInto : String → Option α) (bsRb : String) (t : α)
    (hraw : CallRaw cfg method params outcome = .ok bsRb)
    (hun : unmarshalInto bsRb = some t) :
    (CallInto cfg method params outcome unmarshalInto = .errTarget t ↔
      LWAPIRes.HadErrorOf t = true) ∧
    (CallInto cfg method params outcome unmarshalInto = .ok t ↔
      LWAPIRes.HadErrorOf t = false) := by
  unfold CallInto
  rw [hraw]
  cases hb : LWAPIRes.HadErrorOf t <;> simp [hun, hb]

/-- C9, witness: the surfacing theorem applied to a mock 200 transport whose
body deserializes to an `LWAPIError` target with a non-empty error class. -/
theorem callinto_error_surfacing_witness :
    (CallInto cfgBase "network/zone/details" (.json (.obj [("id", .num 1)]))
        (.response 200 true "\x7b\"error_class\":\"LW::X\"\x7d")
        (fun _ => some ({ ErrorMsg := "", ErrorClass := "LW::X",
                          ErrorFullMsg := "" } : LWAPIError)) =
      .errTarget { ErrorMsg := "", ErrorClass := "LW::X", ErrorFullMsg := "" } ↔
      LWAPIRes.HadErrorOf ({ ErrorMsg := "", ErrorClass := "LW::X",
                             ErrorFullMsg := "" } : LWAPIError) = true) ∧
    (CallInto cfgBase "network/zone/details" (.json (.obj [("id", .num 1)]))
        (.response 200 true "\x7b\"error_class\":\"LW::X\"\x7d")
        (fun _ => some ({ ErrorMsg := "", ErrorClass := "LW::X",
                          ErrorFullMsg := "" } : LWAPIError)) =
      .ok { ErrorMsg := "", ErrorClass := "LW::X", ErrorFullMsg := "" } ↔
      LWAPIRes.HadErrorOf ({ ErrorMsg := "", ErrorClass := "LW::X",
                             ErrorFullMsg := "" } : LWAPIError) = false) :=
  callinto_error_surfacing cfgBase "network/zone/details"
    (.json (.obj [("id", .num 1)]))
    (.response 200 true "\x7b\"error_class\":\"LW::X\"\x7d")
    (fun _ => some ({ ErrorMsg := "", ErrorClass := "LW::X",
                      ErrorFullMsg := "" } : LWAPIError))
    "\x7b\"error_class\":\"LW::X\"\x7d"
    { ErrorMsg := "", ErrorClass := "LW::X", ErrorFullMsg := "" } rfl rfl

/-- C10: `LWAPIError.HadError` holds exactly when `ErrorClass` is non-empty;
`LWAPIError.Error` renders `ErrorClass` and `ErrorFullMsg` only, omitting
`ErrorMsg`; hence a deserialized target whose `error_class` is empty is
reported by `CallInto` as a success even when its short `error` message is
non-empty. -/
theorem lwapierror_semantics (e : LWAPIError) (cfg : ViperConfig)
    (method : String) (params : GoValue) (outcome : TransportOutcome)
    (unmarshalInto : String → Option LWAPIError) (bsRb : String) :
    (e.HadError = true ↔ e.ErrorClass ≠ "") ∧
    e.Error = e.ErrorClass ++ ": " ++ e.ErrorFullMsg ∧
    (CallRaw cfg method params outcome = .ok bsRb →
      unmarshalInto bsRb = some e → e.ErrorClass = "" →
      CallInto cfg method params outcome unmarshalInto = .ok e) := by
  refine ⟨?_, rfl, ?_⟩
  · simp [LWAPIError.HadError, bne_iff_ne]
  · intro hraw hun hclass
    unfold CallInto
    rw [hraw]
    simp [hun, lwapiErrorRes, LWAPIError.HadError, hclass]

/-- C10, witness: the semantics theorem applied to the target deserialized
from `\x7b"error":"bad"\x7d`, which sets only the short message. -/
theorem lwapierror_semantics_witness :
    (({ ErrorMsg := "bad", ErrorClass := "", ErrorFullMsg := "" } :
        LWAPIError).HadError = true ↔
      ({ ErrorMsg := "bad", ErrorClass := "", ErrorFullMsg := "" } :
        LWAPIError).ErrorClass ≠ "") ∧
    ({ ErrorMsg := "bad", ErrorClass := "", ErrorFullMsg := "" } :
        LWAPIError).Error =
      ({ ErrorMsg := "bad", ErrorClass := "", ErrorFullMsg := "" } :
        LWAPIError).ErrorClass ++ ": " ++
      ({ ErrorMsg := "bad", ErrorClass := "", ErrorFullMsg := "" } :
        LWAPIError).ErrorFullMsg ∧
    CallInto cfgBase "bleed/asset/details" (.json (.obj [("uniq_id", .str "X")]))
        (.response 200 true "\x7b\"error\":\"bad\"\x7d")
        (fun _ => some ({ ErrorMsg := "bad", ErrorClass := "",
                          ErrorFullMsg := "" } : LWAPIError)) =
      .ok { ErrorMsg := "bad", ErrorClass := "", ErrorFullMsg := "" } := by
  have t := lwapierror_semantics
    { ErrorMsg := "bad", ErrorClass := "", ErrorFullMsg := "" }
    cfgBase "bleed/asset/details" (.json (.obj [("uniq_id", .str "X")]))
    (.response 200 true "\x7b\"error\":\"bad\"\x7d")
    (fun _ => some ({ ErrorMsg := "bad", ErrorClass := "",
                      ErrorFullMsg := "" } : LWAPIError))
    "\x7b\"error\":\"bad\"\x7d"
  exact ⟨t.1, t.2.1, t.2.2 rfl rfl rfl⟩
